import Mathlib

/-!
Verification of the face-registry and gaze-arbitration engine of
`face_track.py` (class `FaceTrack`).

The Python state is embedded shallowly:

* face ids are `Int` (the look-at intent uses the negative sentinel `-1`);
* positions and timestamps are `ℚ` (the source compares them with `<`, `>`
  and subtracts them; no float rounding is relevant to any claim);
* the two dictionaries `face_locations` and `recent_locations` become
  association lists `List (Int × Face)` with dictionary-style update
  (`fmapInsert` replaces any previous binding of the key);
* the owyl blackboard keys used by the class become the `BB` structure,
  where the Python empty-string sentinel for `new_face` is `none`;
* the dynamically created attribute `first_flance` (assigned on the glance
  lookup-failure path, see `do_look_at_actions`) is modelled as an
  `Option ℚ` field that is `none` until that path runs;
* publishing on a ROS topic becomes appending a `Pub` value to the list of
  publishes returned by the function (`Pub.eye` = gaze/eye topic,
  `Pub.head` = face/head topic);
* `time.time()` becomes an explicit `now : ℚ` argument.
-/

/-- A published 3D target (the `Target` message: fields x, y, z). -/
structure Target where
  x : ℚ
  y : ℚ
  z : ℚ
  deriving DecidableEq, Repr

/-- A publish action: either on the gaze (eye) topic or the face (head) topic. -/
inductive Pub where
  | eye (t : Target)
  | head (t : Target)
  deriving DecidableEq, Repr

/-- True exactly on head-topic publishes. -/
def Pub.isHead : Pub → Bool
  | Pub.eye _ => false
  | Pub.head _ => true

/-- The `Face` record of face_track.py: id, 3D location, last-seen time. -/
structure Face where
  faceid : Int
  x : ℚ
  y : ℚ
  z : ℚ
  t : ℚ
  deriving DecidableEq, Repr

/-- An incoming face-location message entry (id plus 3D point). -/
structure FaceMsg where
  id : Int
  px : ℚ
  py : ℚ
  pz : ℚ
  deriving DecidableEq, Repr

/-- The association-list embedding of a Python dict keyed by face id. -/
abbrev FMap := List (Int × Face)

/-- Key membership, `fid in d` on a Python dict. -/
def fmapMem (k : Int) (m : FMap) : Bool :=
  m.any (fun p => p.1 == k)

/-- Lookup, `d[fid]` on a Python dict, as an `Option`. -/
def fmapFind (k : Int) (m : FMap) : Option Face :=
  (m.find? (fun p => p.1 == k)).map (fun p => p.2)

/-- Deletion, `del d[fid]` on a Python dict. -/
def fmapErase (k : Int) (m : FMap) : FMap :=
  m.filter (fun p => p.1 != k)

/-- Update, `d[fid] = v` on a Python dict: replaces any previous binding. -/
def fmapInsert (k : Int) (v : Face) (m : FMap) : FMap :=
  (k, v) :: fmapErase k m

/-- The keys of the association list. -/
def fmapKeys (m : FMap) : List Int :=
  m.map (fun p => p.1)

/-- The owyl blackboard keys touched by FaceTrack. Python's empty-string
sentinel for `new_face` / `lost_face` is `none`. -/
structure BB where
  is_interruption : Bool
  new_face : Option Int
  lost_face : Option Int
  background_face_targets : List Int
  deriving DecidableEq, Repr

/-- The mutable state of class FaceTrack. -/
structure FaceTrack where
  blackboard : BB
  visible_faces : List Int
  face_locations : FMap
  recent_locations : FMap
  look_at : Int
  gaze_at : Int
  glance_at : Int
  first_glance : ℚ
  glance_howlong : ℚ
  last_lookat : ℚ
  last_vacuum : ℚ
  first_flance : Option ℚ
  deriving DecidableEq, Repr

/-- RECENT_INTERVAL: how long a lost face is kept in recent_locations. -/
def RECENT_INTERVAL : ℚ := 5

/-- LOOKAT_INTERVAL: rate limit for the gaze/look branch. -/
def LOOKAT_INTERVAL : ℚ := 1

/-- VACUUM_INTERVAL: cadence of the housekeeping vacuum. -/
def VACUUM_INTERVAL : ℚ := 1

/-- The state built by FaceTrack.__init__ (the blackboard is passed in). -/
def initState (bb : BB) : FaceTrack :=
  { blackboard := bb
    visible_faces := []
    face_locations := []
    recent_locations := []
    look_at := 0
    gaze_at := 0
    glance_at := 0
    first_glance := -1
    glance_howlong := -1
    last_lookat := 0
    last_vacuum := 0
    first_flance := none }

/-- The neutral target published for face id 0: 1 meter straight ahead. -/
def neutralTarget : Target := { x := 1, y := 0, z := 0 }

/-- The target built from a Face record (trg.x,y,z := face.x,y,z). -/
def faceTarget (f : Face) : Target := { x := f.x, y := f.y, z := f.z }

/-- FaceTrack.gaze_at_face: eye-only tracking command.  Publishes the
neutral eye target when called with id 0, resets the rate-limit timer,
clears `gaze_at` when the id is not visible, otherwise records it. -/
def gaze_at_face (s : FaceTrack) (faceid : Int) : FaceTrack × List Pub :=
  let pubs := if faceid = 0 then [Pub.eye neutralTarget] else []
  let s1 := { s with last_lookat := 0 }
  if faceid ∈ s1.visible_faces then
    ({ s1 with gaze_at := faceid }, pubs)
  else
    ({ s1 with gaze_at := 0 }, pubs)

/-- FaceTrack.look_at_face: one-shot head-turn command, symmetric to
`gaze_at_face` but for `look_at` and the head topic. -/
def look_at_face (s : FaceTrack) (faceid : Int) : FaceTrack × List Pub :=
  let pubs := if faceid = 0 then [Pub.head neutralTarget] else []
  let s1 := { s with last_lookat := 0 }
  if faceid ∈ s1.visible_faces then
    ({ s1 with look_at := faceid }, pubs)
  else
    ({ s1 with look_at := 0 }, pubs)

/-- FaceTrack.glance_at_face: records the glance intent, lazily started
(`first_glance := -1`). -/
def glance_at_face (s : FaceTrack) (faceid : Int) (howlong : ℚ) : FaceTrack :=
  { s with glance_at := faceid, glance_howlong := howlong, first_glance := -1 }

/-- FaceTrack.add_face_to_bb: new-face notification into the blackboard. -/
def add_face_to_bb (bb : BB) (faceid : Int) : BB :=
  if faceid ∈ bb.background_face_targets then bb
  else
    { bb with
      is_interruption := true
      new_face := some faceid
      background_face_targets := bb.background_face_targets ++ [faceid] }

/-- FaceTrack.remove_face_from_bb: lost-face notification; clears the
blackboard's `new_face` only when it equals the removed id, and is a
no-op when the id is not among the background face targets. -/
def remove_face_from_bb (bb : BB) (fid : Int) : BB :=
  if fid ∈ bb.background_face_targets then
    let bb1 :=
      { bb with
        is_interruption := true
        lost_face := some fid
        background_face_targets := bb.background_face_targets.erase fid }
    if bb1.new_face = some fid then { bb1 with new_face := none } else bb1
  else bb

/-- FaceTrack.add_face: start tracking a face (idempotent). -/
def add_face (s : FaceTrack) (faceid : Int) : FaceTrack :=
  if faceid ∈ s.visible_faces then s
  else
    { s with
      visible_faces := s.visible_faces ++ [faceid]
      blackboard := add_face_to_bb s.blackboard faceid }

/-- FaceTrack.remove_face: stop tracking a face. -/
def remove_face (s : FaceTrack) (faceid : Int) : FaceTrack :=
  let s1 := { s with blackboard := remove_face_from_bb s.blackboard faceid }
  let s2 :=
    if faceid ∈ s1.visible_faces then
      { s1 with visible_faces := s1.visible_faces.erase faceid }
    else s1
  if fmapMem faceid s2.face_locations then
    { s2 with face_locations := fmapErase faceid s2.face_locations }
  else s2

/-- The glance resolution: `face_locations` first, then `recent_locations`
(lines 235-238 of do_look_at_actions). -/
def glanceLookup (s : FaceTrack) (fid : Int) : Option Face :=
  match fmapFind fid s.face_locations with
  | some f => some f
  | none => fmapFind fid s.recent_locations

/-- The vacuum pass over the two maps (lines 302-312): entries of
`face_locations` older than VACUUM_INTERVAL move to `recent_locations`,
then entries of `recent_locations` older than RECENT_INTERVAL are dropped. -/
def vacuumMaps (now : ℚ) (locs recents : FMap) : FMap × FMap :=
  let stale := locs.filter (fun p => decide (now - p.2.t > VACUUM_INTERVAL))
  let locs1 := locs.filter (fun p => !(decide (now - p.2.t > VACUUM_INTERVAL)))
  let rec1 := stale.foldl (fun m p => fmapInsert p.1 p.2 m) recents
  let rec2 := rec1.filter (fun p => !(decide (now - p.2.t > RECENT_INTERVAL)))
  (locs1, rec2)

/-- The cadence guard around the vacuum pass (line 300). -/
def runVacuum (s : FaceTrack) (now : ℚ) : FaceTrack :=
  if now - s.last_vacuum > VACUUM_INTERVAL then
    let lr := vacuumMaps now s.face_locations s.recent_locations
    { s with face_locations := lr.1, recent_locations := lr.2, last_vacuum := now }
  else s

/-- The gaze part of the rate-limited branch (lines 262-274).  Returns the
new state, the publishes, and whether the Python `return` fired (KeyError
on the gaze target). -/
def gazePart (s : FaceTrack) : FaceTrack × List Pub × Bool :=
  if 0 < s.gaze_at ∧ s.look_at ≤ 0 then
    match fmapFind s.gaze_at s.face_locations with
    | none =>
        let r := gaze_at_face s 0
        (r.1, r.2, true)
    | some face => (s, [Pub.eye (faceTarget face)], false)
  else (s, [], false)

/-- The look part of the rate-limited branch (lines 276-293).  On success
the head turn is published and tracking transfers to the eyes
(`gaze_at := look_at`, `look_at := -1`). -/
def lookPart (s : FaceTrack) : FaceTrack × List Pub × Bool :=
  if 0 < s.look_at then
    match fmapFind s.look_at s.face_locations with
    | none =>
        let r := look_at_face s 0
        (r.1, r.2, true)
    | some face =>
        ({ s with gaze_at := s.look_at, look_at := -1 },
         [Pub.head (faceTarget face)], false)
  else (s, [], false)

/-- FaceTrack.do_look_at_actions: the per-update decision procedure.
Glance branch first; otherwise the rate-limited gaze/look branch; the
vacuum block runs afterwards unless one of the two `return` statements in
the gaze/look branch fired.  On the glance lookup-failure path the source
assigns `self.first_flance = -1` (a fresh attribute), leaving
`first_glance` untouched; the embedding reproduces that assignment. -/
def do_look_at_actions (s0 : FaceTrack) (now : ℚ) : FaceTrack × List Pub :=
  if 0 < s0.glance_at then
    let s1 := if s0.first_glance < 0 then { s0 with first_glance := now } else s0
    if now - s1.first_glance < s1.glance_howlong then
      match glanceLookup s1 s1.glance_at with
      | some face =>
          (runVacuum s1 now, [Pub.eye (faceTarget face)])
      | none =>
          (runVacuum { s1 with glance_at := 0, first_flance := some (-1) } now, [])
    else
      (runVacuum { s1 with glance_at := 0, first_glance := -1 } now, [])
  else if now - s0.last_lookat > LOOKAT_INTERVAL then
    let s1 := { s0 with last_lookat := now }
    let g := gazePart s1
    if g.2.2 then (g.1, g.2.1)
    else
      let l := lookPart g.1
      if l.2.2 then (l.1, g.2.1 ++ l.2.1)
      else (runVacuum l.1 now, g.2.1 ++ l.2.1)
  else
    (runVacuum s0 now, [])

/-- Processing of one entry of a face-locations message inside
FaceTrack.face_loc_cb (lines 334-349): reject x below 0.05, otherwise
add the face, overwrite its location record, and drop it from
`recent_locations`. -/
def processFace (s : FaceTrack) (fm : FaceMsg) (now : ℚ) : FaceTrack :=
  if fm.px < 5 / 100 then s
  else
    let inface : Face := { faceid := fm.id, x := fm.px, y := fm.py, z := fm.pz, t := now }
    let s1 := add_face s fm.id
    let s2 := { s1 with face_locations := fmapInsert fm.id inface s1.face_locations }
    if fmapMem fm.id s2.recent_locations then
      { s2 with recent_locations := fmapErase fm.id s2.recent_locations }
    else s2

/-- FaceTrack.face_loc_cb: fold the batch through `processFace`, then run
the look-at actions once. -/
def face_loc_cb (s : FaceTrack) (faces : List FaceMsg) (now : ℚ) : FaceTrack × List Pub :=
  do_look_at_actions (faces.foldl (fun acc fm => processFace acc fm now) s) now

/-- A face event, as delivered to FaceTrack.face_event_cb. -/
inductive FaceEventMsg where
  | new_face (id : Int)
  | lost_face (id : Int)
  | other
  deriving DecidableEq, Repr

/-- FaceTrack.face_event_cb: dispatch appearance/loss events. -/
def face_event_cb (s : FaceTrack) (e : FaceEventMsg) : FaceTrack :=
  match e with
  | FaceEventMsg.new_face id => add_face s id
  | FaceEventMsg.lost_face id => remove_face s id
  | FaceEventMsg.other => s

/-!
Helper lemmas about the association-list map operations.
-/

theorem fmapMem_eq_true_iff {k : Int} {m : FMap} :
    fmapMem k m = true ↔ ∃ v, (k, v) ∈ m := by
  simp only [fmapMem, List.any_eq_true, beq_iff_eq]
  constructor
  · rintro ⟨⟨a, b⟩, hm, rfl⟩
    exact ⟨b, hm⟩
  · rintro ⟨v, hv⟩
    exact ⟨(k, v), hv, rfl⟩

theorem fmapFind_isSome_of_mem {k : Int} {m : FMap} (h : fmapMem k m = true) :
    (fmapFind k m).isSome = true := by
  rcases fmapMem_eq_true_iff.mp h with ⟨v, hv⟩
  simp only [fmapFind, Option.isSome_map']
  refine List.find?_isSome.mpr ⟨(k, v), hv, ?_⟩
  exact beq_self_eq_true k

theorem mem_of_mem_fmapErase {p : Int × Face} {k : Int} {m : FMap}
    (h : p ∈ fmapErase k m) : p ∈ m ∧ p.1 ≠ k := by
  have h2 := List.mem_filter.mp h
  refine ⟨h2.1, ?_⟩
  simpa [bne_iff_ne] using h2.2

theorem mem_fmapInsert {p : Int × Face} {k : Int} {v : Face} {m : FMap} :
    p ∈ fmapInsert k v m ↔ p = (k, v) ∨ (p ∈ m ∧ p.1 ≠ k) := by
  simp only [fmapInsert, List.mem_cons]
  constructor
  · rintro (rfl | h)
    · exact Or.inl rfl
    · exact Or.inr (mem_of_mem_fmapErase h)
  · rintro (rfl | ⟨hm, hne⟩)
    · exact Or.inl rfl
    · exact Or.inr (List.mem_filter.mpr ⟨hm, by simpa [bne_iff_ne] using hne⟩)

theorem fmapMem_fmapInsert {k k' : Int} {v : Face} {m : FMap} :
    fmapMem k (fmapInsert k' v m) = true ↔ k = k' ∨ fmapMem k m = true := by
  simp only [fmapMem_eq_true_iff]
  constructor
  · rintro ⟨w, hw⟩
    rcases mem_fmapInsert.mp hw with h | ⟨hm, _⟩
    · exact Or.inl (congrArg Prod.fst h)
    · exact Or.inr ⟨w, hm⟩
  · rintro (rfl | ⟨w, hw⟩)
    · exact ⟨v, mem_fmapInsert.mpr (Or.inl rfl)⟩
    · by_cases hkk : k = k'
      · exact ⟨v, mem_fmapInsert.mpr (Or.inl (by rw [hkk]))⟩
      · exact ⟨w, mem_fmapInsert.mpr (Or.inr ⟨hw, hkk⟩)⟩

theorem fmapMem_foldl_insert {l : FMap} {r : FMap} {k : Int}
    (h : fmapMem k (l.foldl (fun m p => fmapInsert p.1 p.2 m) r) = true) :
    (∃ v, (k, v) ∈ l) ∨ fmapMem k r = true := by
  induction l generalizing r with
  | nil => exact Or.inr h
  | cons a l ih =>
    rcases ih (r := fmapInsert a.1 a.2 r) h with ⟨v, hv⟩ | hmem
    · exact Or.inl ⟨v, List.mem_cons_of_mem _ hv⟩
    · rcases fmapMem_fmapInsert.mp hmem with rfl | hr
      · exact Or.inl ⟨a.2, by simp⟩
      · exact Or.inr hr

theorem key_val_unique {m : FMap} (h : (fmapKeys m).Nodup) {k : Int} {v w : Face}
    (h1 : (k, v) ∈ m) (h2 : (k, w) ∈ m) : v = w := by
  induction m with
  | nil => cases h1
  | cons a m ih =>
    have hnd := List.nodup_cons.mp h
    rcases List.mem_cons.mp h1 with rfl | h1t
    · rcases List.mem_cons.mp h2 with h2h | h2t
      · exact (congrArg Prod.snd h2h.symm)
      · exact absurd (List.mem_map.mpr ⟨(k, w), h2t, rfl⟩) hnd.1
    · rcases List.mem_cons.mp h2 with rfl | h2t
      · exact absurd (List.mem_map.mpr ⟨(k, v), h1t, rfl⟩) hnd.1
      · exact ih hnd.2 h1t h2t

theorem fmapKeys_filter_nodup {m : FMap} (h : (fmapKeys m).Nodup) (p : Int × Face → Bool) :
    (fmapKeys (m.filter p)).Nodup :=
  List.Nodup.sublist (List.Sublist.map _ (List.filter_sublist m)) h


/-!
Field-preservation lemmas for the pieces of `do_look_at_actions`.
-/

theorem runVacuum_visible (s : FaceTrack) (now : ℚ) :
    (runVacuum s now).visible_faces = s.visible_faces := by
  simp only [runVacuum]
  split <;> rfl

theorem runVacuum_look_at (s : FaceTrack) (now : ℚ) :
    (runVacuum s now).look_at = s.look_at := by
  simp only [runVacuum]
  split <;> rfl

theorem runVacuum_gaze_at (s : FaceTrack) (now : ℚ) :
    (runVacuum s now).gaze_at = s.gaze_at := by
  simp only [runVacuum]
  split <;> rfl

theorem runVacuum_of_elapsed (s : FaceTrack) (now : ℚ)
    (h : now - s.last_vacuum > VACUUM_INTERVAL) :
    runVacuum s now =
      { s with
        face_locations := (vacuumMaps now s.face_locations s.recent_locations).1
        recent_locations := (vacuumMaps now s.face_locations s.recent_locations).2
        last_vacuum := now } := by
  simp only [runVacuum, if_pos h]

theorem gaze_at_face_visible (s : FaceTrack) (f : Int) :
    (gaze_at_face s f).1.visible_faces = s.visible_faces := by
  simp only [gaze_at_face]
  split <;> rfl

theorem gaze_at_face_look_at (s : FaceTrack) (f : Int) :
    (gaze_at_face s f).1.look_at = s.look_at := by
  simp only [gaze_at_face]
  split <;> rfl

theorem gaze_at_face_locs (s : FaceTrack) (f : Int) :
    (gaze_at_face s f).1.face_locations = s.face_locations := by
  simp only [gaze_at_face]
  split <;> rfl

theorem gaze_at_face_recent (s : FaceTrack) (f : Int) :
    (gaze_at_face s f).1.recent_locations = s.recent_locations := by
  simp only [gaze_at_face]
  split <;> rfl

theorem gaze_at_face_no_head (s : FaceTrack) (f : Int) :
    ((gaze_at_face s f).2.all fun p => !(p.isHead)) = true := by
  simp only [gaze_at_face]
  split <;> split <;> rfl

theorem look_at_face_visible (s : FaceTrack) (f : Int) :
    (look_at_face s f).1.visible_faces = s.visible_faces := by
  simp only [look_at_face]
  split <;> rfl

theorem look_at_face_locs (s : FaceTrack) (f : Int) :
    (look_at_face s f).1.face_locations = s.face_locations := by
  simp only [look_at_face]
  split <;> rfl

theorem look_at_face_recent (s : FaceTrack) (f : Int) :
    (look_at_face s f).1.recent_locations = s.recent_locations := by
  simp only [look_at_face]
  split <;> rfl

theorem gazePart_visible (s : FaceTrack) :
    (gazePart s).1.visible_faces = s.visible_faces := by
  simp only [gazePart]
  split
  · split
    · exact gaze_at_face_visible s 0
    · rfl
  · rfl

theorem gazePart_look_at (s : FaceTrack) :
    (gazePart s).1.look_at = s.look_at := by
  simp only [gazePart]
  split
  · split
    · exact gaze_at_face_look_at s 0
    · rfl
  · rfl

theorem gazePart_locs (s : FaceTrack) :
    (gazePart s).1.face_locations = s.face_locations := by
  simp only [gazePart]
  split
  · split
    · exact gaze_at_face_locs s 0
    · rfl
  · rfl

theorem gazePart_recent (s : FaceTrack) :
    (gazePart s).1.recent_locations = s.recent_locations := by
  simp only [gazePart]
  split
  · split
    · exact gaze_at_face_recent s 0
    · rfl
  · rfl

theorem gazePart_no_head (s : FaceTrack) :
    ((gazePart s).2.1.all fun p => !(p.isHead)) = true := by
  simp only [gazePart]
  split
  · split
    · exact gaze_at_face_no_head s 0
    · rfl
  · rfl

theorem lookPart_visible (s : FaceTrack) :
    (lookPart s).1.visible_faces = s.visible_faces := by
  simp only [lookPart]
  split
  · split
    · exact look_at_face_visible s 0
    · rfl
  · rfl

theorem lookPart_locs (s : FaceTrack) :
    (lookPart s).1.face_locations = s.face_locations := by
  simp only [lookPart]
  split
  · split
    · exact look_at_face_locs s 0
    · rfl
  · rfl

theorem lookPart_recent (s : FaceTrack) :
    (lookPart s).1.recent_locations = s.recent_locations := by
  simp only [lookPart]
  split
  · split
    · exact look_at_face_recent s 0
    · rfl
  · rfl

theorem tick_visible (s : FaceTrack) (now : ℚ) :
    (do_look_at_actions s now).1.visible_faces = s.visible_faces := by
  simp only [do_look_at_actions]
  repeat' split
  all_goals
    simp [runVacuum_visible, gazePart_visible, lookPart_visible, gaze_at_face_visible,
      look_at_face_visible]

theorem runVacuum_maps (s : FaceTrack) (now : ℚ) :
    ((runVacuum s now).face_locations = s.face_locations ∧
      (runVacuum s now).recent_locations = s.recent_locations) ∨
    ((runVacuum s now).face_locations = (vacuumMaps now s.face_locations s.recent_locations).1 ∧
      (runVacuum s now).recent_locations = (vacuumMaps now s.face_locations s.recent_locations).2) := by
  simp only [runVacuum]
  split
  · exact Or.inr ⟨rfl, rfl⟩
  · exact Or.inl ⟨rfl, rfl⟩

theorem runVacuum_maps_of (s X : FaceTrack) (now : ℚ)
    (h1 : X.face_locations = s.face_locations)
    (h2 : X.recent_locations = s.recent_locations) :
    ((runVacuum X now).face_locations = s.face_locations ∧
      (runVacuum X now).recent_locations = s.recent_locations) ∨
    ((runVacuum X now).face_locations = (vacuumMaps now s.face_locations s.recent_locations).1 ∧
      (runVacuum X now).recent_locations = (vacuumMaps now s.face_locations s.recent_locations).2) := by
  rw [← h1, ← h2]
  exact runVacuum_maps X now

theorem tick_maps (s : FaceTrack) (now : ℚ) :
    ((do_look_at_actions s now).1.face_locations = s.face_locations ∧
      (do_look_at_actions s now).1.recent_locations = s.recent_locations) ∨
    ((do_look_at_actions s now).1.face_locations =
        (vacuumMaps now s.face_locations s.recent_locations).1 ∧
      (do_look_at_actions s now).1.recent_locations =
        (vacuumMaps now s.face_locations s.recent_locations).2) := by
  simp only [do_look_at_actions]
  repeat' split
  all_goals first
    | exact runVacuum_maps_of s _ now rfl rfl
    | exact runVacuum_maps_of s _ now
        (by simp [lookPart_locs, gazePart_locs])
        (by simp [lookPart_recent, gazePart_recent])
    | exact Or.inl ⟨by simp [lookPart_locs, gazePart_locs],
        by simp [lookPart_recent, gazePart_recent]⟩

theorem lookPart_of_nonpos (s : FaceTrack) (h : s.look_at ≤ 0) :
    lookPart s = (s, [], false) := by
  simp only [lookPart]
  rw [if_neg (not_lt.mpr h)]

theorem tick_look_at_nonpos (s : FaceTrack) (now : ℚ) (h : s.look_at ≤ 0) :
    (do_look_at_actions s now).1.look_at = s.look_at := by
  simp only [do_look_at_actions]
  split
  · repeat' split
    all_goals simp [runVacuum_look_at]
  · split
    · have hlp := lookPart_of_nonpos ((gazePart ({ s with last_lookat := now } : FaceTrack)).1)
        (by simpa [gazePart_look_at] using h)
      rw [hlp]
      split
      · exact gazePart_look_at _
      · simp [runVacuum_look_at, gazePart_look_at]
    · simp [runVacuum_look_at]

theorem tick_no_head_pubs (s : FaceTrack) (now : ℚ) (h : s.look_at ≤ 0) :
    ((do_look_at_actions s now).2.all fun p => !(p.isHead)) = true := by
  simp only [do_look_at_actions]
  split
  · repeat' split
    all_goals simp [Pub.isHead]
  · split
    · have hlp := lookPart_of_nonpos ((gazePart ({ s with last_lookat := now } : FaceTrack)).1)
        (by simpa [gazePart_look_at] using h)
      rw [hlp]
      split
      · exact gazePart_no_head _
      · simpa using gazePart_no_head ({ s with last_lookat := now } : FaceTrack)
    · simp

theorem runVacuum_elapsed_fields (s : FaceTrack) (now : ℚ)
    (h : now - s.last_vacuum > VACUUM_INTERVAL) :
    (runVacuum s now).last_vacuum = now ∧
    (runVacuum s now).face_locations = (vacuumMaps now s.face_locations s.recent_locations).1 ∧
    (runVacuum s now).recent_locations = (vacuumMaps now s.face_locations s.recent_locations).2 := by
  rw [runVacuum_of_elapsed s now h]
  exact ⟨rfl, rfl, rfl⟩

/-!
Concrete states used by the counterexamples and witnesses.
-/

/-- An empty blackboard, as general_behavior would hand it over before any
face has been seen. -/
def bbEmpty : BB :=
  { is_interruption := false, new_face := none, lost_face := none,
    background_face_targets := [] }

/-- A face record for id 2, seen at time 0. -/
def faceA : Face := { faceid := 2, x := 1/2, y := 0, z := 0, t := 0 }

/-- A face record for id 6, seen at time 0. -/
def faceB : Face := { faceid := 6, x := 3/5, y := 1, z := 0, t := 0 }

/-- A face record for id 7, seen at time 0. -/
def faceC : Face := { faceid := 7, x := 1/2, y := 0, z := 0, t := 0 }

/-- A registry state with face 2 visible and face 6 recently seen. -/
def sReg : FaceTrack :=
  { initState bbEmpty with
    visible_faces := [2]
    face_locations := [(2, faceA)]
    recent_locations := [(6, faceB)] }

/-- C1 failing input: an armed glance at face 9 which is unknown to both
`face_locations` and `recent_locations`. -/
def sC1 : FaceTrack :=
  { initState bbEmpty with glance_at := 9, glance_howlong := 2, last_vacuum := 10 }

/-- C1: evaluating the tick at the failing input.  The glance target is
cleared and nothing is published (as the claim states), but the source's
`self.first_flance = -1` typo means `first_glance` is NOT reset: it keeps
the value `now = 10` set at the start of this very tick, and the stray
`first_flance` attribute is created instead.  The claim (and the spec's
stated intent) requires `first_glance` to be reset to unset here. -/
theorem C1_glance_lookup_miss_behavior :
    (do_look_at_actions sC1 10).2 = [] ∧
    (do_look_at_actions sC1 10).1.glance_at = 0 ∧
    (do_look_at_actions sC1 10).1.first_glance = 10 ∧
    (do_look_at_actions sC1 10).1.first_flance = some (-1) := by
  norm_num [do_look_at_actions, sC1, initState, bbEmpty, glanceLookup, fmapFind,
    runVacuum, vacuumMaps, LOOKAT_INTERVAL, VACUUM_INTERVAL, RECENT_INTERVAL]

/-- C3 counterexample state: an active glance at face 3 whose duration has
elapsed at time 5, while a gaze at the visible face 7 is pending and the
rate-limit interval has elapsed (`5 - last_lookat > 1`). -/
def sC3 : FaceTrack :=
  { initState bbEmpty with
    glance_at := 3
    first_glance := 0
    glance_howlong := 1
    gaze_at := 7
    visible_faces := [7]
    face_locations := [(7, faceC)]
    last_vacuum := 5 }

/-- C3 counterexample: on the tick where the glance duration has elapsed,
the glance state is cleared but nothing at all is published — the
rate-limited gaze handling is NOT evaluated within the same tick (it would
have published face 7's position), and the very next tick does publish it.
This refutes the claim that the fall-through happens in the same tick. -/
theorem C3_same_tick_counterexample :
    (5 - sC3.first_glance ≥ sC3.glance_howlong) ∧
    (5 - sC3.last_lookat > LOOKAT_INTERVAL) ∧
    (do_look_at_actions sC3 5).2 = [] ∧
    (do_look_at_actions sC3 5).1.glance_at = 0 ∧
    (do_look_at_actions (do_look_at_actions sC3 5).1 6).2 = [Pub.eye (faceTarget faceC)] := by
  norm_num [do_look_at_actions, sC3, initState, bbEmpty, glanceLookup, fmapFind,
    fmapMem, runVacuum, vacuumMaps, gazePart, lookPart, gaze_at_face, look_at_face,
    faceTarget, faceC, LOOKAT_INTERVAL, VACUUM_INTERVAL, RECENT_INTERVAL]

/-- C3 amended: on a tick where an active glance's duration has elapsed,
the glance state is cleared (`glance_at := 0`, `first_glance := -1`) and
only the housekeeping vacuum may additionally run; the normal rate-limited
gaze/look handling is deferred to the next tick call, and nothing is
published on the elapsed-glance tick itself. -/
theorem C3_glance_elapsed_defers (s : FaceTrack) (now : ℚ)
    (hg : 0 < s.glance_at) (h0 : 0 ≤ s.first_glance)
    (hdone : s.glance_howlong ≤ now - s.first_glance) :
    do_look_at_actions s now =
      (runVacuum { s with glance_at := 0, first_glance := -1 } now, []) := by
  simp only [do_look_at_actions, if_pos hg]
  rw [if_neg (not_lt.mpr h0), if_neg (not_lt.mpr hdone)]

/-- C3 witness: the amended theorem applied at the concrete state `sC3`. -/
theorem C3_glance_elapsed_defers_witness :
    (0 < sC3.glance_at ∧ 0 ≤ sC3.first_glance ∧ sC3.glance_howlong ≤ 5 - sC3.first_glance) ∧
    do_look_at_actions sC3 5 =
      (runVacuum { sC3 with glance_at := 0, first_glance := -1 } 5, []) :=
  ⟨⟨by norm_num [sC3, initState, bbEmpty], by norm_num [sC3, initState, bbEmpty],
      by norm_num [sC3, initState, bbEmpty]⟩,
    C3_glance_elapsed_defers sC3 5 (by norm_num [sC3, initState, bbEmpty])
      (by norm_num [sC3, initState, bbEmpty]) (by norm_num [sC3, initState, bbEmpty])⟩

/-- C4 counterexample: id 0 is not in `visible_faces`, yet `gaze_at_face 0`
publishes the neutral eye target — so it is not true that every id outside
`visibleIds` produces no publish.  (The gaze target is indeed cleared.) -/
theorem C4_setGaze_zero_counterexample :
    ((initState bbEmpty).visible_faces.contains 0) = false ∧
    (gaze_at_face (initState bbEmpty) 0).2 = [Pub.eye neutralTarget] ∧
    (gaze_at_face (initState bbEmpty) 0).1.gaze_at = 0 := by decide

/-- C4 amended: for every NONZERO id not in `visible_faces`, `gaze_at_face`
clears the gaze target to 0, resets the rate-limit timer, and publishes
nothing to the eye sink.  (Id 0 also clears the target but additionally
publishes the neutral eye target.) -/
theorem C4_setGaze_invisible_nonzero (s : FaceTrack) (id : Int) (h0 : id ≠ 0)
    (hv : id ∉ s.visible_faces) :
    gaze_at_face s id = ({ s with last_lookat := 0, gaze_at := 0 }, []) := by
  simp only [gaze_at_face, if_neg h0, if_neg hv]

/-- C4 witness: the amended theorem applied to id 5 on the initial state. -/
theorem C4_setGaze_invisible_nonzero_witness :
    ((5 : Int) ≠ 0 ∧ (5 : Int) ∉ (initState bbEmpty).visible_faces) ∧
    gaze_at_face (initState bbEmpty) 5 =
      ({ initState bbEmpty with last_lookat := 0, gaze_at := 0 }, []) :=
  ⟨⟨by decide, by decide⟩, C4_setGaze_invisible_nonzero (initState bbEmpty) 5 (by decide) (by decide)⟩

/-- C7: a location update whose x coordinate is below 0.05 leaves the
whole FaceTrack state unchanged — nothing is added to `visible_faces`,
nothing written to `face_locations`, nothing removed from
`recent_locations`, and no exception is possible (the function is total). -/
theorem C7_reject_low_x (s : FaceTrack) (fm : FaceMsg) (now : ℚ)
    (h : fm.px < 5 / 100) :
    processFace s fm now = s := by
  simp only [processFace, if_pos h]

/-- C7 witness: a reading at x = 0.01 is discarded on a populated state. -/
theorem C7_reject_low_x_witness :
    (({ id := 4, px := 1/100, py := 2, pz := 3 } : FaceMsg).px < 5 / 100) ∧
    processFace sReg { id := 4, px := 1/100, py := 2, pz := 3 } 3 = sReg :=
  ⟨by norm_num,
    C7_reject_low_x sReg { id := 4, px := 1/100, py := 2, pz := 3 } 3 (by norm_num)⟩

theorem remove_face_blackboard (s : FaceTrack) (id : Int) :
    (remove_face s id).blackboard = remove_face_from_bb s.blackboard id := by
  simp only [remove_face]
  repeat' split
  all_goals rfl

/-- C8 counterexample state: the blackboard's `new_face` is 5, but 5 is not
among the background face targets (the blackboard is handed in from
outside, so this state is accepted by the constructor). -/
def sC8 : FaceTrack :=
  initState
    { is_interruption := false, new_face := some 5, lost_face := none,
      background_face_targets := [] }

/-- C8 counterexample: `new_face` equals the removed id 5, yet
`remove_face 5` leaves it untouched, because `remove_face_from_bb` is a
no-op when the id is not in `background_face_targets`.  This refutes the
claimed "clears if and only if the field equals id". -/
theorem C8_activeNewFace_counterexample :
    sC8.blackboard.new_face = some 5 ∧
    (remove_face sC8 5).blackboard.new_face = some 5 := by decide

/-- C8 amended: `remove_face id` clears the blackboard's `new_face` exactly
when id is currently in `background_face_targets` AND the field equals id;
in every other case — including when the field equals id but id is absent
from the targets list — the field is left untouched. -/
theorem C8_removeFace_newface_formula (s : FaceTrack) (id : Int) :
    (remove_face s id).blackboard.new_face =
      if id ∈ s.blackboard.background_face_targets ∧ s.blackboard.new_face = some id
      then none else s.blackboard.new_face := by
  rw [remove_face_blackboard]
  simp only [remove_face_from_bb]
  split
  · rename_i hmem
    split
    · rename_i heq
      rw [if_pos ⟨hmem, heq⟩]
    · rename_i hne
      rw [if_neg (fun hc => hne hc.2)]
  · rename_i hmem
    rw [if_neg (fun hc => hmem hc.1)]

theorem remove_face_recent (s : FaceTrack) (id : Int) :
    (remove_face s id).recent_locations = s.recent_locations := by
  simp only [remove_face]
  repeat' split
  all_goals rfl

/-- C10: `remove_face` never touches `recent_locations`; consequently any
face currently in `recent_locations` is still resolvable by the glance
lookup (locations first, then recent) after an explicit loss event for any
id. -/
theorem C10_removeFace_preserves_recent (s : FaceTrack) (id fid : Int)
    (h : fmapMem fid s.recent_locations = true) :
    (remove_face s id).recent_locations = s.recent_locations ∧
    (glanceLookup (remove_face s id) fid).isSome = true := by
  refine ⟨remove_face_recent s id, ?_⟩
  unfold glanceLookup
  cases hfind : fmapFind fid (remove_face s id).face_locations with
  | none =>
    simp only [hfind]
    rw [remove_face_recent s id]
    exact fmapFind_isSome_of_mem h
  | some f => simp only [hfind, Option.isSome_some]

/-- C10 witness: face 6 sits in `recent_locations` of `sReg`; after
`remove_face 2` it is untouched and the glance lookup still finds it. -/
theorem C10_removeFace_preserves_recent_witness :
    fmapMem 6 sReg.recent_locations = true ∧
    ((remove_face sReg 2).recent_locations = sReg.recent_locations ∧
      (glanceLookup (remove_face sReg 2) 6).isSome = true) :=
  ⟨by decide, C10_removeFace_preserves_recent sReg 2 6 (by decide)⟩

/-- Absence of the two Python `return` paths of the rate-limited branch:
whenever the gaze branch would run, its target is found, and whenever the
look branch would run, its target is found. -/
def gazeLookSafe (s : FaceTrack) : Prop :=
  (0 < s.gaze_at ∧ s.look_at ≤ 0 → (fmapFind s.gaze_at s.face_locations).isSome = true) ∧
  (0 < s.look_at → (fmapFind s.look_at s.face_locations).isSome = true)

theorem gazePart_eq_of_safe (s : FaceTrack)
    (hsafe : 0 < s.gaze_at ∧ s.look_at ≤ 0 →
      (fmapFind s.gaze_at s.face_locations).isSome = true) :
    ∃ ps, gazePart s = (s, ps, false) := by
  simp only [gazePart]
  split
  · rename_i hc
    cases hface : fmapFind s.gaze_at s.face_locations with
    | none =>
      have hs := hsafe hc
      rw [hface] at hs
      simp at hs
    | some face =>
      exact ⟨[Pub.eye (faceTarget face)], rfl⟩
  · exact ⟨[], rfl⟩

theorem lookPart_eq_of_safe (s : FaceTrack)
    (hsafe : 0 < s.look_at → (fmapFind s.look_at s.face_locations).isSome = true) :
    ∃ X ps, lookPart s = (X, ps, false) ∧ X.face_locations = s.face_locations ∧
      X.recent_locations = s.recent_locations ∧ X.last_vacuum = s.last_vacuum := by
  simp only [lookPart]
  split
  · rename_i hc
    cases hface : fmapFind s.look_at s.face_locations with
    | none =>
      have hs := hsafe hc
      rw [hface] at hs
      simp at hs
    | some face =>
      exact ⟨_, [Pub.head (faceTarget face)], rfl, rfl, rfl, rfl⟩
  · exact ⟨s, [], rfl, rfl, rfl, rfl⟩

/-- C2 counterexample state: a pending gaze at face 5 which has no entry in
`face_locations`, while the stale face 7 (last seen at time 0) is still in
`face_locations` and the vacuum cadence has long elapsed. -/
def sC2 : FaceTrack :=
  { initState bbEmpty with gaze_at := 5, face_locations := [(7, faceC)] }

/-- C2 counterexample: at time 10 the vacuum cadence has elapsed
(10 - 0 > 1) and face 7 is stale (10 - 0 > 1), yet because the gaze lookup
for face 5 fails, the tick takes the early-return path: `last_vacuum` stays
0, face 7 is NOT moved out of `face_locations`, and `recent_locations`
stays empty — the vacuum pass did not run, refuting the claim that it runs
on every tick whose cadence has elapsed. -/
theorem C2_vacuum_skipped_counterexample :
    ((10 : ℚ) - sC2.last_vacuum > VACUUM_INTERVAL) ∧
    (do_look_at_actions sC2 10).1.last_vacuum = 0 ∧
    fmapMem 7 (do_look_at_actions sC2 10).1.face_locations = true ∧
    (do_look_at_actions sC2 10).1.recent_locations = [] := by
  norm_num [do_look_at_actions, sC2, initState, bbEmpty, glanceLookup, fmapFind,
    fmapMem, runVacuum, vacuumMaps, gazePart, lookPart, gaze_at_face, look_at_face,
    faceTarget, faceC, LOOKAT_INTERVAL, VACUUM_INTERVAL, RECENT_INTERVAL]

/-- C2 amended: on every tick where the vacuum cadence has elapsed, the
vacuum pass over `face_locations` and `recent_locations` runs — EXCEPT on
a tick where the gaze or look lookup fails, whose early return (after
clearing the intent) also skips the vacuum block.  The theorem covers the
three non-aborting cases: an active glance, a rate-limit window that has
not elapsed, or gaze/look lookups that cannot fail. -/
theorem C2_vacuum_runs_unless_lookup_fails (s : FaceTrack) (now : ℚ)
    (hv : now - s.last_vacuum > VACUUM_INTERVAL)
    (h : 0 < s.glance_at ∨ ¬(now - s.last_lookat > LOOKAT_INTERVAL) ∨ gazeLookSafe s) :
    (do_look_at_actions s now).1.last_vacuum = now ∧
    (do_look_at_actions s now).1.face_locations =
      (vacuumMaps now s.face_locations s.recent_locations).1 ∧
    (do_look_at_actions s now).1.recent_locations =
      (vacuumMaps now s.face_locations s.recent_locations).2 := by
  by_cases hg : 0 < s.glance_at
  · simp only [do_look_at_actions, if_pos hg]
    repeat' split
    all_goals exact runVacuum_elapsed_fields _ now hv
  · by_cases hl : now - s.last_lookat > LOOKAT_INTERVAL
    · rcases h with hG | hL | hsafe
      · exact absurd hG hg
      · exact absurd hl hL
      · obtain ⟨ps1, hgp⟩ :=
          gazePart_eq_of_safe ({ s with last_lookat := now } : FaceTrack) hsafe.1
        obtain ⟨X, ps2, hlp, hx1, hx2, hx3⟩ :=
          lookPart_eq_of_safe ({ s with last_lookat := now } : FaceTrack) hsafe.2
        simp only [do_look_at_actions, if_neg hg, if_pos hl, hgp]
        simp only [hlp]
        have hres := runVacuum_elapsed_fields X now (by rw [hx3]; exact hv)
        rw [hx1, hx2] at hres
        simpa using hres
    · simp only [do_look_at_actions, if_neg hg, if_neg hl]
      exact runVacuum_elapsed_fields _ now hv

/-- C2 witness state: the rate-limit window has not elapsed at time 12
(last_lookat = 12), the vacuum cadence has (12 - 0 > 1), and the stale
face 7 gets vacuumed. -/
def sW2 : FaceTrack :=
  { initState bbEmpty with last_lookat := 12, face_locations := [(7, faceC)] }

/-- C2 witness: the amended theorem applied at `sW2` and time 12. -/
theorem C2_vacuum_runs_unless_lookup_fails_witness :
    ((12 : ℚ) - sW2.last_vacuum > VACUUM_INTERVAL) ∧
    ((do_look_at_actions sW2 12).1.last_vacuum = 12 ∧
      (do_look_at_actions sW2 12).1.face_locations =
        (vacuumMaps 12 sW2.face_locations sW2.recent_locations).1 ∧
      (do_look_at_actions sW2 12).1.recent_locations =
        (vacuumMaps 12 sW2.face_locations sW2.recent_locations).2) :=
  ⟨by norm_num [sW2, initState, bbEmpty, VACUUM_INTERVAL],
    C2_vacuum_runs_unless_lookup_fails sW2 12
      (by norm_num [sW2, initState, bbEmpty, VACUUM_INTERVAL])
      (Or.inr (Or.inl (by norm_num [sW2, initState, bbEmpty, LOOKAT_INTERVAL])))⟩

theorem gazePart_not_applicable (s : FaceTrack)
    (h : ¬(0 < s.gaze_at ∧ s.look_at ≤ 0)) :
    gazePart s = (s, [], false) := by
  simp only [gazePart]
  rw [if_neg h]

theorem lookPart_found (s : FaceTrack) (face : Face) (hl : 0 < s.look_at)
    (hf : fmapFind s.look_at s.face_locations = some face) :
    lookPart s =
      ({ s with gaze_at := s.look_at, look_at := -1 },
        [Pub.head (faceTarget face)], false) := by
  simp only [lookPart]
  rw [if_pos hl, hf]

/-- C5: on a tick with no active glance and an elapsed rate-limit window,
a pending positive `look_at` whose id is found in `face_locations` results
in exactly one head-sink publish of that face's position, after which
tracking transfers to the eyes (`gaze_at := look_at`, `look_at := -1`);
and any subsequent tick from the resulting state keeps `look_at = -1` and
publishes nothing to the head sink, until a new look command arrives. -/
theorem C5_look_transfers_to_gaze (s : FaceTrack) (now now2 : ℚ) (face : Face)
    (hg : s.glance_at ≤ 0)
    (hint : now - s.last_lookat > LOOKAT_INTERVAL)
    (hl : 0 < s.look_at)
    (hf : fmapFind s.look_at s.face_locations = some face) :
    (do_look_at_actions s now).2 = [Pub.head (faceTarget face)] ∧
    (do_look_at_actions s now).1.gaze_at = s.look_at ∧
    (do_look_at_actions s now).1.look_at = -1 ∧
    (do_look_at_actions (do_look_at_actions s now).1 now2).1.look_at = -1 ∧
    ((do_look_at_actions (do_look_at_actions s now).1 now2).2.all
      fun p => !(p.isHead)) = true := by
  have hng : ¬ (0 < s.glance_at) := not_lt.mpr hg
  have hgp := gazePart_not_applicable ({ s with last_lookat := now } : FaceTrack)
    (fun hc => absurd hl (not_lt.mpr hc.2))
  have hlp := lookPart_found ({ s with last_lookat := now } : FaceTrack) face hl hf
  have hmain : do_look_at_actions s now =
      (runVacuum
        ({ { s with last_lookat := now } with
            gaze_at := s.look_at, look_at := -1 } : FaceTrack) now,
        [Pub.head (faceTarget face)]) := by
    simp only [do_look_at_actions, if_neg hng, if_pos hint, hgp]
    simp only [hlp]
    simp
  have h3 : (do_look_at_actions s now).1.look_at = -1 := by
    rw [hmain]
    exact runVacuum_look_at _ now
  have hle : (do_look_at_actions s now).1.look_at ≤ 0 := by
    rw [h3]
    norm_num
  refine ⟨by rw [hmain], ?_, h3, ?_, tick_no_head_pubs _ now2 hle⟩
  · rw [hmain]
    exact runVacuum_gaze_at _ now
  · rw [tick_look_at_nonpos _ now2 hle, h3]

/-- A face record for id 3, seen at time 2, used by the C5 witness. -/
def faceD : Face := { faceid := 3, x := 1/2, y := 1/10, z := 1/5, t := 2 }

/-- C5 witness state: face 3 visible with a known location and a pending
look intent at it. -/
def sW5 : FaceTrack :=
  { initState bbEmpty with
    look_at := 3
    visible_faces := [3]
    face_locations := [(3, faceD)] }

/-- C5 witness: the theorem applied at `sW5`, tick at time 2, next tick at
time 4. -/
theorem C5_look_transfers_to_gaze_witness :
    (sW5.glance_at ≤ 0 ∧ (2 : ℚ) - sW5.last_lookat > LOOKAT_INTERVAL ∧
      0 < sW5.look_at ∧ fmapFind sW5.look_at sW5.face_locations = some faceD) ∧
    ((do_look_at_actions sW5 2).2 = [Pub.head (faceTarget faceD)] ∧
      (do_look_at_actions sW5 2).1.gaze_at = sW5.look_at ∧
      (do_look_at_actions sW5 2).1.look_at = -1 ∧
      (do_look_at_actions (do_look_at_actions sW5 2).1 4).1.look_at = -1 ∧
      ((do_look_at_actions (do_look_at_actions sW5 2).1 4).2.all
        fun p => !(p.isHead)) = true) :=
  ⟨⟨by norm_num [sW5, initState, bbEmpty],
      by norm_num [sW5, initState, bbEmpty, LOOKAT_INTERVAL],
      by norm_num [sW5, initState, bbEmpty],
      by simp [sW5, initState, bbEmpty, fmapFind, List.find?]⟩,
    C5_look_transfers_to_gaze sW5 2 4 faceD
      (by norm_num [sW5, initState, bbEmpty])
      (by norm_num [sW5, initState, bbEmpty, LOOKAT_INTERVAL])
      (by norm_num [sW5, initState, bbEmpty])
      (by simp [sW5, initState, bbEmpty, fmapFind, List.find?])⟩

/-!
Registry invariants: disjointness of the two maps (C6) and inclusion of
the location keys in the visible set (C9).
-/

/-- The registry invariant on the raw maps: the keys of `locs` are
pairwise distinct (the Python dict property) and no key of `locs` has an
entry in `recents`. -/
def RegInvM (locs recents : FMap) : Prop :=
  (fmapKeys locs).Nodup ∧ ∀ p ∈ locs, fmapMem p.1 recents = false

/-- The registry invariant on a FaceTrack state. -/
def RegInv (s : FaceTrack) : Prop :=
  RegInvM s.face_locations s.recent_locations

/-- Every key of `face_locations` is in `visible_faces`. -/
def SubV (s : FaceTrack) : Prop :=
  ∀ p ∈ s.face_locations, p.1 ∈ s.visible_faces

theorem fmapMem_erase_self (k : Int) (m : FMap) :
    fmapMem k (fmapErase k m) = false := by
  rw [Bool.eq_false_iff]
  intro h
  rcases fmapMem_eq_true_iff.mp h with ⟨v, hv⟩
  exact (mem_of_mem_fmapErase hv).2 rfl

theorem fmapMem_filter_false {k : Int} {m : FMap} (p : Int × Face → Bool)
    (h : fmapMem k m = false) : fmapMem k (m.filter p) = false := by
  rw [Bool.eq_false_iff] at h ⊢
  intro hc
  rcases fmapMem_eq_true_iff.mp hc with ⟨v, hv⟩
  exact h (fmapMem_eq_true_iff.mpr ⟨v, (List.mem_filter.mp hv).1⟩)

theorem fmapMem_of_filter {k : Int} {m : FMap} {p : Int × Face → Bool}
    (h : fmapMem k (m.filter p) = true) : fmapMem k m = true := by
  rcases fmapMem_eq_true_iff.mp h with ⟨v, hv⟩
  exact fmapMem_eq_true_iff.mpr ⟨v, (List.mem_filter.mp hv).1⟩

theorem fmapKeys_insert_nodup {k : Int} {v : Face} {m : FMap}
    (h : (fmapKeys m).Nodup) : (fmapKeys (fmapInsert k v m)).Nodup := by
  have h1 : (fmapKeys (fmapErase k m)).Nodup := fmapKeys_filter_nodup h _
  simp only [fmapInsert, fmapKeys, List.map_cons]
  refine List.nodup_cons.mpr ⟨?_, h1⟩
  intro hk
  rcases List.mem_map.mp hk with ⟨q, hq, hqk⟩
  exact (mem_of_mem_fmapErase hq).2 hqk

theorem vacuumMaps_reginv (now : ℚ) (locs recents : FMap)
    (h : RegInvM locs recents) :
    RegInvM (vacuumMaps now locs recents).1 (vacuumMaps now locs recents).2 := by
  obtain ⟨hwf, hd⟩ := h
  constructor
  · exact fmapKeys_filter_nodup hwf _
  · intro p hp
    rw [Bool.eq_false_iff]
    intro hmem
    simp only [vacuumMaps] at hp hmem
    have hp2 := List.mem_filter.mp hp
    have hm1 := fmapMem_of_filter hmem
    rcases fmapMem_foldl_insert hm1 with ⟨v, hv⟩ | hr
    · have hvf := List.mem_filter.mp hv
      have heq : v = p.2 := key_val_unique hwf hvf.1 hp2.1
      rw [heq] at hvf
      have hstale : now - p.2.t > VACUUM_INTERVAL := of_decide_eq_true hvf.2
      have hfresh : ¬ (now - p.2.t > VACUUM_INTERVAL) := by
        have hb := hp2.2
        simp only [Bool.not_eq_true', decide_eq_false_iff_not] at hb
        exact hb
      exact hfresh hstale
    · rw [hd p hp2.1] at hr
      exact absurd hr (by decide)

theorem add_face_locs (s : FaceTrack) (id : Int) :
    (add_face s id).face_locations = s.face_locations := by
  simp only [add_face]
  split <;> rfl

theorem add_face_recent (s : FaceTrack) (id : Int) :
    (add_face s id).recent_locations = s.recent_locations := by
  simp only [add_face]
  split <;> rfl

theorem add_face_self_visible (s : FaceTrack) (id : Int) :
    id ∈ (add_face s id).visible_faces := by
  simp only [add_face]
  split
  · assumption
  · exact List.mem_append_right _ (List.mem_singleton.mpr rfl)

theorem add_face_visible_mono (s : FaceTrack) (id : Int) {k : Int}
    (h : k ∈ s.visible_faces) : k ∈ (add_face s id).visible_faces := by
  simp only [add_face]
  split
  · exact h
  · exact List.mem_append_left _ h

theorem remove_face_locs (s : FaceTrack) (id : Int) :
    (remove_face s id).face_locations =
      if fmapMem id s.face_locations = true then fmapErase id s.face_locations
      else s.face_locations := by
  simp only [remove_face]
  split <;> split <;> rfl

theorem remove_face_visible (s : FaceTrack) (id : Int) :
    (remove_face s id).visible_faces =
      if id ∈ s.visible_faces then s.visible_faces.erase id
      else s.visible_faces := by
  simp only [remove_face]
  split <;> split <;> rfl

theorem RegInv_add_face (s : FaceTrack) (id : Int) (h : RegInv s) :
    RegInv (add_face s id) := by
  simp only [RegInv, add_face_locs, add_face_recent]
  exact h

theorem RegInv_processFace (s : FaceTrack) (fm : FaceMsg) (now : ℚ)
    (h : RegInv s) : RegInv (processFace s fm now) := by
  by_cases hx : fm.px < 5 / 100
  · simp only [processFace, if_pos hx]
    exact h
  · simp only [RegInv, processFace, if_neg hx]
    split
    · refine ⟨?_, ?_⟩
      · exact fmapKeys_insert_nodup (by rw [add_face_locs]; exact h.1)
      · intro p hp
        rcases mem_fmapInsert.mp hp with rfl | ⟨hpm, hne⟩
        · exact fmapMem_erase_self _ _
        · rw [add_face_locs] at hpm
          apply fmapMem_filter_false
          rw [add_face_recent]
          exact h.2 p hpm
    · rename_i hc
      refine ⟨?_, ?_⟩
      · exact fmapKeys_insert_nodup (by rw [add_face_locs]; exact h.1)
      · intro p hp
        rcases mem_fmapInsert.mp hp with rfl | ⟨hpm, hne⟩
        · cases hb : fmapMem fm.id (add_face s fm.id).recent_locations with
          | false => rfl
          | true => exact absurd hb hc
        · rw [add_face_locs] at hpm
          rw [add_face_recent]
          exact h.2 p hpm

theorem RegInv_remove_face (s : FaceTrack) (id : Int) (h : RegInv s) :
    RegInv (remove_face s id) := by
  simp only [RegInv, remove_face_locs, remove_face_recent]
  by_cases hm : fmapMem id s.face_locations = true
  · rw [if_pos hm]
    refine ⟨fmapKeys_filter_nodup h.1 _, ?_⟩
    intro p hp
    exact h.2 p (mem_of_mem_fmapErase hp).1
  · rw [if_neg hm]
    exact h

theorem RegInv_gaze_at_face (s : FaceTrack) (id : Int) (h : RegInv s) :
    RegInv (gaze_at_face s id).1 := by
  simp only [RegInv, gaze_at_face_locs, gaze_at_face_recent]
  exact h

theorem RegInv_look_at_face (s : FaceTrack) (id : Int) (h : RegInv s) :
    RegInv (look_at_face s id).1 := by
  simp only [RegInv, look_at_face_locs, look_at_face_recent]
  exact h

theorem RegInv_tick (s : FaceTrack) (now : ℚ) (h : RegInv s) :
    RegInv (do_look_at_actions s now).1 := by
  rcases tick_maps s now with ⟨h1, h2⟩ | ⟨h1, h2⟩
  · simp only [RegInv]
    rw [h1, h2]
    exact h
  · simp only [RegInv]
    rw [h1, h2]
    exact vacuumMaps_reginv now _ _ h

theorem RegInv_foldProcess (now : ℚ) (faces : List FaceMsg) :
    ∀ s : FaceTrack, RegInv s →
      RegInv (faces.foldl (fun acc fm => processFace acc fm now) s) := by
  induction faces with
  | nil => exact fun s h => h
  | cons a l ih => exact fun s h => ih _ (RegInv_processFace s a now h)

theorem RegInv_face_loc_cb (s : FaceTrack) (faces : List FaceMsg) (now : ℚ)
    (h : RegInv s) : RegInv (face_loc_cb s faces now).1 := by
  simp only [face_loc_cb]
  exact RegInv_tick _ now (RegInv_foldProcess now faces s h)

theorem RegInv_face_event_cb (s : FaceTrack) (e : FaceEventMsg) (h : RegInv s) :
    RegInv (face_event_cb s e) := by
  cases e with
  | new_face id => exact RegInv_add_face s id h
  | lost_face id => exact RegInv_remove_face s id h
  | other => exact h

theorem SubV_add_face (s : FaceTrack) (id : Int) (h : SubV s) :
    SubV (add_face s id) := by
  intro p hp
  rw [add_face_locs] at hp
  exact add_face_visible_mono s id (h p hp)

theorem SubV_processFace (s : FaceTrack) (fm : FaceMsg) (now : ℚ)
    (h : SubV s) : SubV (processFace s fm now) := by
  by_cases hx : fm.px < 5 / 100
  · simp only [processFace, if_pos hx]
    exact h
  · simp only [SubV, processFace, if_neg hx]
    intro p
    split
    all_goals
      intro hp
      rcases mem_fmapInsert.mp hp with rfl | ⟨hpm, hne⟩
      · exact add_face_self_visible s fm.id
      · rw [add_face_locs] at hpm
        exact add_face_visible_mono s fm.id (h p hpm)

theorem SubV_remove_face (s : FaceTrack) (id : Int) (h : SubV s) :
    SubV (remove_face s id) := by
  intro p hp
  rw [remove_face_locs] at hp
  rw [remove_face_visible]
  by_cases hm : fmapMem id s.face_locations = true
  · rw [if_pos hm] at hp
    obtain ⟨hpm, hne⟩ := mem_of_mem_fmapErase hp
    by_cases hv : id ∈ s.visible_faces
    · rw [if_pos hv]
      exact (List.mem_erase_of_ne hne).mpr (h p hpm)
    · rw [if_neg hv]
      exact h p hpm
  · rw [if_neg hm] at hp
    have hne : p.1 ≠ id := by
      intro he
      exact hm (fmapMem_eq_true_iff.mpr ⟨p.2, by rw [← he]; exact hp⟩)
    by_cases hv : id ∈ s.visible_faces
    · rw [if_pos hv]
      exact (List.mem_erase_of_ne hne).mpr (h p hp)
    · rw [if_neg hv]
      exact h p hp

theorem SubV_gaze_at_face (s : FaceTrack) (id : Int) (h : SubV s) :
    SubV (gaze_at_face s id).1 := by
  intro p hp
  rw [gaze_at_face_locs] at hp
  rw [gaze_at_face_visible]
  exact h p hp

theorem SubV_look_at_face (s : FaceTrack) (id : Int) (h : SubV s) :
    SubV (look_at_face s id).1 := by
  intro p hp
  rw [look_at_face_locs] at hp
  rw [look_at_face_visible]
  exact h p hp

theorem SubV_tick (s : FaceTrack) (now : ℚ) (h : SubV s) :
    SubV (do_look_at_actions s now).1 := by
  intro p hp
  rw [tick_visible]
  rcases tick_maps s now with ⟨h1, _⟩ | ⟨h1, _⟩
  · rw [h1] at hp
    exact h p hp
  · rw [h1] at hp
    simp only [vacuumMaps] at hp
    exact h p (List.mem_filter.mp hp).1

theorem SubV_foldProcess (now : ℚ) (faces : List FaceMsg) :
    ∀ s : FaceTrack, SubV s →
      SubV (faces.foldl (fun acc fm => processFace acc fm now) s) := by
  induction faces with
  | nil => exact fun s h => h
  | cons a l ih => exact fun s h => ih _ (SubV_processFace s a now h)

theorem SubV_face_loc_cb (s : FaceTrack) (faces : List FaceMsg) (now : ℚ)
    (h : SubV s) : SubV (face_loc_cb s faces now).1 := by
  simp only [face_loc_cb]
  exact SubV_tick _ now (SubV_foldProcess now faces s h)

theorem SubV_face_event_cb (s : FaceTrack) (e : FaceEventMsg) (h : SubV s) :
    SubV (face_event_cb s e) := by
  cases e with
  | new_face id => exact SubV_add_face s id h
  | lost_face id => exact SubV_remove_face s id h
  | other => exact h

/-- C6: the key sets of `face_locations` and `recent_locations` stay
disjoint across every operation of the class: a valid location update
writes the id into `face_locations` and deletes it from
`recent_locations`, the vacuum deletes an id from `face_locations` when
moving it to `recent_locations`, and every other operation only shrinks
or preserves the maps.  `RegInv` additionally carries the dict property
that the keys of `face_locations` are pairwise distinct, which every
operation also preserves; `RegInv` holds in the initial state. -/
theorem C6_locations_recent_disjoint (s : FaceTrack) (fm : FaceMsg)
    (id : Int) (now howlong : ℚ) (faces : List FaceMsg) (e : FaceEventMsg)
    (h : RegInv s) :
    RegInv (processFace s fm now) ∧
    RegInv (add_face s id) ∧
    RegInv (remove_face s id) ∧
    RegInv (gaze_at_face s id).1 ∧
    RegInv (look_at_face s id).1 ∧
    RegInv (glance_at_face s id howlong) ∧
    RegInv (do_look_at_actions s now).1 ∧
    RegInv (face_loc_cb s faces now).1 ∧
    RegInv (face_event_cb s e) ∧
    RegInv (initState s.blackboard) :=
  ⟨RegInv_processFace s fm now h, RegInv_add_face s id h,
    RegInv_remove_face s id h, RegInv_gaze_at_face s id h,
    RegInv_look_at_face s id h, h, RegInv_tick s now h,
    RegInv_face_loc_cb s faces now h, RegInv_face_event_cb s e h,
    ⟨List.nodup_nil, fun p hp => absurd hp (List.not_mem_nil p)⟩⟩

/-- C6 witness: the invariant holds at the populated state `sReg` and is
preserved by a concrete batch of operations. -/
theorem C6_locations_recent_disjoint_witness :
    RegInv sReg ∧
    (RegInv (processFace sReg { id := 4, px := 1/2, py := 0, pz := 0 } 3) ∧
      RegInv (add_face sReg 9) ∧
      RegInv (remove_face sReg 9) ∧
      RegInv (gaze_at_face sReg 9).1 ∧
      RegInv (look_at_face sReg 9).1 ∧
      RegInv (glance_at_face sReg 9 2) ∧
      RegInv (do_look_at_actions sReg 3).1 ∧
      RegInv (face_loc_cb sReg [] 3).1 ∧
      RegInv (face_event_cb sReg (FaceEventMsg.new_face 4)) ∧
      RegInv (initState sReg.blackboard)) :=
  ⟨by unfold RegInv RegInvM; decide,
    C6_locations_recent_disjoint sReg { id := 4, px := 1/2, py := 0, pz := 0 }
      9 3 2 [] (FaceEventMsg.new_face 4) (by unfold RegInv RegInvM; decide)⟩

/-- C9: every key of `face_locations` is also a member of
`visible_faces`, and this inclusion is preserved by every operation: a
valid location update calls add_face before writing `face_locations`,
remove_face deletes from both, the vacuum only removes keys from
`face_locations`, and the intent commands touch neither; the inclusion
holds trivially in the initial state. -/
theorem C9_locations_subset_visible (s : FaceTrack) (fm : FaceMsg)
    (id : Int) (now howlong : ℚ) (faces : List FaceMsg) (e : FaceEventMsg)
    (h : SubV s) :
    SubV (processFace s fm now) ∧
    SubV (add_face s id) ∧
    SubV (remove_face s id) ∧
    SubV (gaze_at_face s id).1 ∧
    SubV (look_at_face s id).1 ∧
    SubV (glance_at_face s id howlong) ∧
    SubV (do_look_at_actions s now).1 ∧
    SubV (face_loc_cb s faces now).1 ∧
    SubV (face_event_cb s e) ∧
    SubV (initState s.blackboard) :=
  ⟨SubV_processFace s fm now h, SubV_add_face s id h,
    SubV_remove_face s id h, SubV_gaze_at_face s id h,
    SubV_look_at_face s id h, h, SubV_tick s now h,
    SubV_face_loc_cb s faces now h, SubV_face_event_cb s e h,
    fun p hp => absurd hp (List.not_mem_nil p)⟩

/-- C9 witness: the inclusion holds at `sReg` and is preserved across a
concrete batch of operations. -/
theorem C9_locations_subset_visible_witness :
    SubV sReg ∧
    (SubV (processFace sReg { id := 4, px := 1/2, py := 0, pz := 0 } 3) ∧
      SubV (add_face sReg 9) ∧
      SubV (remove_face sReg 9) ∧
      SubV (gaze_at_face sReg 9).1 ∧
      SubV (look_at_face sReg 9).1 ∧
      SubV (glance_at_face sReg 9 2) ∧
      SubV (do_look_at_actions sReg 3).1 ∧
      SubV (face_loc_cb sReg [] 3).1 ∧
      SubV (face_event_cb sReg (FaceEventMsg.new_face 4)) ∧
      SubV (initState sReg.blackboard)) :=
  ⟨by unfold SubV; decide,
    C9_locations_subset_visible sReg { id := 4, px := 1/2, py := 0, pz := 0 }
      9 3 2 [] (FaceEventMsg.new_face 4) (by unfold SubV; decide)⟩
